import Mathlib

/-!
Verification development for the AWS Guard security policies
(`src/security.ts` of pulumi-awsguard).

The TypeScript policy bodies are embedded shallowly:
* machine time is modelled as `Int` milliseconds since the epoch,
  `Math.floor(x / msInDay)` on integer millisecond differences is `Int.fdiv`;
* the AWS SDK calls (`describeCertificate`, `listAccessKeys`,
  `listMFADevices`) become fields of an explicit environment `AwsEnv`;
* a function that can `throw` returns `Except String _`;
* `reportViolation` becomes accumulation of the reported messages, in order,
  into a `List String`;
* the unbounded `do … while (resp.IsTruncated)` pagination loop becomes a
  fuel-indexed recursion whose result is `none` when the fuel runs out with
  the loop still running (so `none` for every fuel = the loop never finishes).
-/

/-- Enforcement levels of `@pulumi/policy`. -/
inductive EnforcementLevel
  | disabled
  | advisory
  | mandatory
deriving DecidableEq

/-- Milliseconds in a day (`const msInDay = 24 * 60 * 60 * 1000;`). -/
def msInDay : Int := 24 * 60 * 60 * 1000

/-- A property value in a resource's property bag. -/
inductive PropValue
  | str : String → PropValue
  | bool : Bool → PropValue
deriving DecidableEq

/-- One entry of `args.resources`: a type token plus a property bag. -/
structure ResourceArgs where
  type : String
  props : List (String × PropValue)
deriving DecidableEq

/-- The value built by `validateTypedResources` for each resource:
`{ ...r.props, __pulumiType: r.type }`. -/
structure ResolvedResource where
  pulumiType : String
  props : List (String × PropValue)
deriving DecidableEq

/-- `r => ({ ...r.props, __pulumiType: r.type })` (security.ts line 162). -/
def resolveResource (r : ResourceArgs) : ResolvedResource :=
  { pulumiType := r.type, props := r.props }

/-- `validateTypedResources` (security.ts lines 153-166): map every stack
resource to its resolved form, keep the ones accepted by the type filter,
and hand exactly that list to the validation body. -/
def validateTypedResources (typeFilter : ResolvedResource → Bool)
    (validate : List ResolvedResource → List String)
    (resources : List ResourceArgs) : List String :=
  validate ((resources.map resolveResource).filter typeFilter)

/-- The shape the ACM policy reads off a filtered certificate resource. -/
structure CertificateResource where
  id : String
deriving DecidableEq

/-- `describeCertResp.Certificate` : the description may lack `NotAfter`. -/
structure CertificateDescription where
  NotAfter : Option Int
deriving DecidableEq

/-- The shape the key-rotation policy reads off an access-key resource;
`id` and `status` may be absent on a not-yet-provisioned key. -/
structure AccessKeyResource where
  id : Option String
  user : String
  status : Option String
deriving DecidableEq

/-- One element of `accessKeysResp.AccessKeyMetadata`. -/
structure AccessKeyMetadata where
  AccessKeyId : Option String
  CreateDate : Option Int
deriving DecidableEq

/-- The response of one `iam.listAccessKeys` page fetch. -/
structure ListAccessKeysResponse where
  AccessKeyMetadata : List AccessKeyMetadata
  Marker : Option String
  IsTruncated : Bool
deriving DecidableEq

/-- The ambient AWS SDK and clock, as pure functions. -/
structure AwsEnv where
  now : Int
  describeCertificate : String → Option CertificateDescription
  listAccessKeys : String → Option String → ListAccessKeysResponse
  listMFADevices : String → List Unit

/-- JavaScript truthiness of an optional string (`!instance.id` is true on
`undefined` and on the empty string). -/
def truthyStr : Option String → Bool
  | none => false
  | some s => s != ""

/-- JavaScript truthiness of an optional boolean (`!instance.enableKeyRotation`
is true on `undefined` and on `false`). -/
def truthyBool : Option Bool → Bool
  | none => false
  | some b => b

/-- One iteration of the `acm-certificate-expiration` loop
(security.ts lines 66-78): describe the certificate, and if the description
carries `NotAfter`, report a violation when the floored number of days until
expiry is below the configured maximum. -/
def acmCertViolations (maxDaysUntilExpiration : Int) (env : AwsEnv)
    (certInStack : CertificateResource) : List String :=
  match env.describeCertificate certInStack.id with
  | none => []
  | some certDescription =>
    match certDescription.NotAfter with
    | none => []
    | some notAfter =>
      let daysUntilExpiry := Int.fdiv (notAfter - env.now) msInDay
      if daysUntilExpiry < maxDaysUntilExpiration then
        ["certificate expires in " ++ toString daysUntilExpiry ++
          " (max allowed " ++ toString maxDaysUntilExpiration ++ " days)"]
      else []

/-- Body of the `acm-certificate-expiration` stack validation
(security.ts lines 63-79): run the check above over every certificate in the
stack, in order. -/
def acmStackViolations (maxDaysUntilExpiration : Int) (env : AwsEnv)
    (acmCertificates : List CertificateResource) : List String :=
  (acmCertificates.map (acmCertViolations maxDaysUntilExpiration env)).flatten

/-- Body of the `cmk-backing-key-rotation-enabled` resource validation
(security.ts lines 88-92). -/
structure KmsKeyResource where
  enableKeyRotation : Option Bool
deriving DecidableEq

/-- `if (!instance.enableKeyRotation) reportViolation(...)`. -/
def cmkKeyViolations (inst : KmsKeyResource) : List String :=
  if !truthyBool inst.enableKeyRotation then
    ["CMK does not have the key rotation setting enabled"]
  else []

/-- The violation check for one fetched access-key metadata item against the
in-scope resource id (security.ts lines 120-126): only an item whose
`AccessKeyId` equals the resource id and which carries a `CreateDate` can
report, and it reports exactly when the floored age in days strictly exceeds
`maxKeyAge`. -/
def keyItemViolations (instId : String) (now maxKeyAge : Int)
    (accessKey : AccessKeyMetadata) : List String :=
  match accessKey.AccessKeyId, accessKey.CreateDate with
  | some accessKeyId, some createDate =>
    if accessKeyId = instId then
      let daysSinceCreated := Int.fdiv (now - createDate) msInDay
      if daysSinceCreated > maxKeyAge then
        ["access key must be rotated within " ++ toString maxKeyAge ++
          " days (key is " ++ toString daysSinceCreated ++ " days old)"]
      else []
    else []
  | _, _ => []

/-- The `do … while (accessKeysResp.IsTruncated)` pagination loop of
`iamAccessKeysRotated` (security.ts lines 114-130), fuel-indexed.  Returns
the trace of `listAccessKeys` calls made (user name and marker of each) and
`some` of the reported violations when the loop exits because a response has
`IsTruncated = false`; it returns `none` in the second component when the
fuel is exhausted with the source loop still running.  The source loop itself
has no bound of any kind: it keeps calling `listAccessKeys` with the returned
`Marker` for as long as responses have `IsTruncated` set. -/
def listAccessKeysLoop (env : AwsEnv) (userName instId : String)
    (maxKeyAge : Int) :
    Option String → Nat → List (String × Option String) × Option (List String)
  | _, 0 => ([], none)
  | paginationToken, fuel + 1 =>
    let accessKeysResp := env.listAccessKeys userName paginationToken
    let vs := (accessKeysResp.AccessKeyMetadata.map
      (keyItemViolations instId env.now maxKeyAge)).flatten
    if accessKeysResp.IsTruncated then
      let rest := listAccessKeysLoop env userName instId maxKeyAge
        accessKeysResp.Marker fuel
      ((userName, paginationToken) :: rest.1,
        rest.2.map (fun more => vs ++ more))
    else ([(userName, paginationToken)], some vs)

/-- `if (!instance.id || instance.status !== "Active") continue;`
(security.ts line 109). -/
def shouldSkipAccessKey (inst : AccessKeyResource) : Bool :=
  !truthyStr inst.id || inst.status != some "Active"

/-- Processing of one access-key resource by the `access-keys-rotated` body
(security.ts lines 107-131): a key with a falsy id or a non-Active status is
skipped outright (no fetch, no violation); otherwise the pagination loop
runs starting from an absent marker. -/
def processAccessKey (env : AwsEnv) (maxKeyAge : Int) (fuel : Nat)
    (inst : AccessKeyResource) :
    List (String × Option String) × Option (List String) :=
  if shouldSkipAccessKey inst then ([], some [])
  else listAccessKeysLoop env inst.user (inst.id.getD "") maxKeyAge none fuel

/-- Whole-stack body of `access-keys-rotated`: process the access keys in
order, concatenating their violations; `none` if any key's pagination loop
fails to finish within the fuel. -/
def iamStackViolations (env : AwsEnv) (maxKeyAge : Int) (fuel : Nat)
    (accessKeys : List AccessKeyResource) : Option (List String) :=
  accessKeys.foldl
    (fun acc k =>
      match acc, (processAccessKey env maxKeyAge fuel k).2 with
      | some vs, some more => some (vs ++ more)
      | _, _ => none)
    (some [])

/-- The shape the MFA policy reads off a `UserLoginProfile` resource. -/
structure UserLoginProfileResource where
  user : String
deriving DecidableEq

/-- A single-quote character, as it appears in the MFA violation message. -/
def squote : String := String.mk [Char.ofNat 39]

/-- Body of the `mfa-enabled-for-iam-console-access` resource validation
(security.ts lines 141-148): list the user's MFA devices and report exactly
when there are none. -/
def mfaViolations (env : AwsEnv) (inst : UserLoginProfileResource) :
    List String :=
  if (env.listMFADevices inst.user).length = 0 then
    ["no MFA device enabled for IAM User " ++ squote ++ inst.user ++ squote]
  else []

/-- A stack-validation policy definition, over the typed view `ρ` of its
filtered resources. -/
structure StackValidationPolicy (ρ : Type) where
  name : String
  description : String
  enforcementLevel : EnforcementLevel
  validateStack : AwsEnv → Nat → List ρ → Option (List String)

/-- A resource-validation policy definition over the typed view `ρ`. -/
structure ResourceValidationPolicy (ρ : Type) where
  name : String
  description : String
  enforcementLevel : EnforcementLevel
  validateResource : AwsEnv → ρ → List String

/-- `acmCheckCertificateExpiration` (security.ts lines 58-81).  The source
function performs no check at all on `maxDaysUntilExpiration`: it directly
returns the policy object, so the embedding always returns `Except.ok`. -/
def acmCheckCertificateExpiration (enforcementLevel : EnforcementLevel)
    (maxDaysUntilExpiration : Int) :
    Except String (StackValidationPolicy CertificateResource) :=
  Except.ok
    { name := "acm-certificate-expiration"
      description := "Checks whether an ACM certificate has expired. Certificates provided by ACM are automatically renewed. ACM does not automatically renew certificates that you import."
      enforcementLevel := enforcementLevel
      validateStack := fun env _fuel certs =>
        some (acmStackViolations maxDaysUntilExpiration env certs) }

/-- `cmkBackingKeyRotationEnabled` (security.ts lines 83-94). -/
def cmkBackingKeyRotationEnabled (enforcementLevel : EnforcementLevel) :
    ResourceValidationPolicy KmsKeyResource :=
  { name := "cmk-backing-key-rotation-enabled"
    description := "Checks that key rotation is enabled for each customer master key (CMK). Checks that key rotation is enabled for specific key object. Does not apply to CMKs that have imported key material."
    enforcementLevel := enforcementLevel
    validateResource := fun _env k => cmkKeyViolations k }

/-- `iamAccessKeysRotated` (security.ts lines 96-134): throws
`"Invalid maxKeyAge."` when `maxKeyAge < 1 || maxKeyAge > 2 * 365`, before
the policy object is built; otherwise returns the policy. -/
def iamAccessKeysRotated (enforcementLevel : EnforcementLevel)
    (maxKeyAge : Int) :
    Except String (StackValidationPolicy AccessKeyResource) :=
  if maxKeyAge < 1 ∨ maxKeyAge > 2 * 365 then
    Except.error "Invalid maxKeyAge."
  else
    Except.ok
      { name := "access-keys-rotated"
        description := "Checks whether an access key have been rotated within maxKeyAge days."
        enforcementLevel := enforcementLevel
        validateStack := fun env fuel keys =>
          iamStackViolations env maxKeyAge fuel keys }

/-- `iamMfaEnabledForConsoleAccess` (security.ts lines 136-150). -/
def iamMfaEnabledForConsoleAccess (enforcementLevel : EnforcementLevel) :
    ResourceValidationPolicy UserLoginProfileResource :=
  { name := "mfa-enabled-for-iam-console-access"
    description := "Checks whether multi-factor Authentication (MFA) is enabled for an IAM user that use a console password."
    enforcementLevel := enforcementLevel
    validateResource := mfaViolations }

/-- Modelled from the spec: `getValueOrDefault` lives in `src/util.ts`, which
is not under `src/`; the spec (section 4.3) says unspecified settings fall
back to documented defaults, i.e. override if present, else default. -/
def getValueOrDefault {α : Type} (value : Option α) (defaultValue : α) : α :=
  value.getD defaultValue

/-- `SecurityPolicySettings` (security.ts lines 36-45). -/
structure SecurityPolicySettings where
  acmCheckCertificateExpirationMaxDays : Option Int
  iamAccessKeysRotatedMaxDays : Option Int

/-- Wrapper enabling a heterogeneous list of the four policies. -/
inductive SecurityPolicy
  | stackCert : StackValidationPolicy CertificateResource → SecurityPolicy
  | resourceKms : ResourceValidationPolicy KmsKeyResource → SecurityPolicy
  | stackAccessKey : StackValidationPolicy AccessKeyResource → SecurityPolicy
  | resourceLogin : ResourceValidationPolicy UserLoginProfileResource → SecurityPolicy

/-- `getPolicies` (security.ts lines 48-56), with the documented defaults 14
and 90; an exception thrown by a constructor aborts the whole list. -/
def getPolicies (enforcement : EnforcementLevel)
    (settings : SecurityPolicySettings) :
    Except String (List SecurityPolicy) := do
  let acm ← acmCheckCertificateExpiration enforcement
    (getValueOrDefault settings.acmCheckCertificateExpirationMaxDays 14)
  let iam ← iamAccessKeysRotated enforcement
    (getValueOrDefault settings.iamAccessKeysRotatedMaxDays 90)
  pure [SecurityPolicy.stackCert acm,
    SecurityPolicy.resourceKms (cmkBackingKeyRotationEnabled enforcement),
    SecurityPolicy.stackAccessKey iam,
    SecurityPolicy.resourceLogin (iamMfaEnabledForConsoleAccess enforcement)]

/-- A quiescent provider: nothing described, no access keys, no MFA devices. -/
def baseEnv : AwsEnv :=
  { now := 0
    describeCertificate := fun _ => none
    listAccessKeys := fun _ _ => { AccessKeyMetadata := [], Marker := none, IsTruncated := false }
    listMFADevices := fun _ => [] }

/-- A provider whose every `listAccessKeys` response signals a further page:
`IsTruncated` is always set and a `Marker` is always returned. -/
def alwaysTruncatedEnv : AwsEnv :=
  { baseEnv with
    listAccessKeys := fun _ _ =>
      { AccessKeyMetadata := [], Marker := some "next", IsTruncated := true } }

/-- A provider that describes every certificate with no `NotAfter` set. -/
def noExpiryEnv : AwsEnv :=
  { baseEnv with describeCertificate := fun _ => some { NotAfter := none } }

/-- A provider reporting exactly one MFA device for every user. -/
def oneMfaDeviceEnv : AwsEnv :=
  { baseEnv with listMFADevices := fun _ => [()] }

/-- A provider describing every certificate as having expired twenty days
ago (`NotAfter` at the epoch, the clock twenty days later). -/
def expiredCertEnv : AwsEnv :=
  { baseEnv with
    now := 20 * msInDay
    describeCertificate := fun _ => some { NotAfter := some 0 } }

/-- C1: the spec claims the access-key pagination loop enforces a configured
maximum page count and fails with a transient `ExternalServiceError` when a
provider keeps signalling more pages.  The source loop
(security.ts lines 117-130) has no such bound: against a provider whose every
response has `IsTruncated` set, the loop is still running after any number
`fuel` of page fetches (second component `none` means "not yet finished"),
and the body has no error outcome at all — the code loops forever instead of
failing. -/
theorem accessKeysLoop_unbounded_no_error :
    ∀ (fuel : Nat) (marker : Option String) (userName instId : String)
      (maxKeyAge : Int),
      (listAccessKeysLoop alwaysTruncatedEnv userName instId maxKeyAge
        marker fuel).2 = none := by
  intro fuel
  induction fuel with
  | zero => intro marker userName instId maxKeyAge; rfl
  | succ n ih =>
    intro marker userName instId maxKeyAge
    simp [listAccessKeysLoop, alwaysTruncatedEnv, baseEnv]
    exact ih (some "next") userName instId maxKeyAge

/-- C2 counterexample: the ACM threshold is not validated at construction.
`maxDaysUntilExpiration = 0` (outside the declared day-count domain
`[1, 730]`) and even `-5` are silently accepted: construction succeeds. -/
theorem acm_threshold_not_validated :
    (acmCheckCertificateExpiration EnforcementLevel.mandatory 0).isOk = true ∧
    (acmCheckCertificateExpiration EnforcementLevel.mandatory (-5)).isOk = true :=
  ⟨rfl, rfl⟩

/-- C2 amended: only the IAM `maxKeyAge` threshold is validated at
configuration time — construction succeeds exactly when it lies in
`[1, 730]` — while `acmCheckCertificateExpiration` accepts every value of
`maxDaysUntilExpiration` without any check. -/
theorem threshold_validation_iam_only (el : EnforcementLevel) (m d : Int) :
    ((iamAccessKeysRotated el m).isOk = true ↔ 1 ≤ m ∧ m ≤ 730) ∧
    (acmCheckCertificateExpiration el d).isOk = true := by
  refine ⟨?_, rfl⟩
  by_cases hc : m < 1 ∨ m > 2 * 365
  · simp only [iamAccessKeysRotated, if_pos hc, Except.isOk]
    constructor
    · intro h; exact absurd h (by decide)
    · intro h; omega
  · simp only [iamAccessKeysRotated, if_neg hc, Except.isOk]
    constructor
    · intro _; omega
    · intro _; rfl

/-- C4: constructing `iamAccessKeysRotated` with `maxKeyAge` below 1 or above
730 yields the configuration error `"Invalid maxKeyAge."` before any policy
object is built, and with `maxKeyAge` in `[1, 730]` construction succeeds
and returns a policy definition. -/
theorem iamAccessKeysRotated_config_domain (el : EnforcementLevel) (m : Int) :
    ((m < 1 ∨ m > 730) →
      iamAccessKeysRotated el m = Except.error "Invalid maxKeyAge.") ∧
    (1 ≤ m → m ≤ 730 → (iamAccessKeysRotated el m).isOk = true) := by
  constructor
  · intro h
    have hc : m < 1 ∨ m > 2 * 365 := by omega
    simp only [iamAccessKeysRotated, if_pos hc]
  · intro h1 h2
    have hc : ¬(m < 1 ∨ m > 2 * 365) := by omega
    simp only [iamAccessKeysRotated, if_neg hc]
    rfl

/-- Witness for C4 at `maxKeyAge = 0` (rejected) and `maxKeyAge = 90`
(accepted). -/
theorem iamAccessKeysRotated_config_domain_witness :
    iamAccessKeysRotated EnforcementLevel.advisory 0 =
      Except.error "Invalid maxKeyAge." ∧
    (iamAccessKeysRotated EnforcementLevel.advisory 90).isOk = true :=
  ⟨(iamAccessKeysRotated_config_domain EnforcementLevel.advisory 0).1
      (Or.inl (by decide)),
    (iamAccessKeysRotated_config_domain EnforcementLevel.advisory 90).2
      (by decide) (by decide)⟩

/-- C3 counterexample: a stack with one certificate resource whose described
certificate has no expiry field set, with `maxDaysUntilExpiration = 14`,
produces zero violations — not exactly one as claimed: the body skips the
whole check when `NotAfter` is absent. -/
theorem acm_missing_expiry_no_violation :
    acmStackViolations 14 noExpiryEnv [{ id := "cert-1" }] = [] ∧
    (acmStackViolations 14 noExpiryEnv [{ id := "cert-1" }]).length = 0 :=
  ⟨rfl, rfl⟩

/-- C3 amended: for a stack containing one certificate resource, the policy
reports no violation when the described certificate carries no expiry; when
an expiry `notAfter` is present, it reports exactly one violation — whose
message states the computed floored days-until-expiry and the configured
threshold — precisely when that day count is below the threshold. -/
theorem acm_expiry_violation_characterization (env : AwsEnv)
    (certId : String) (maxDays : Int) :
    ((env.describeCertificate certId).bind CertificateDescription.NotAfter =
        none →
      acmStackViolations maxDays env [{ id := certId }] = []) ∧
    (∀ notAfter : Int,
      (env.describeCertificate certId).bind CertificateDescription.NotAfter =
        some notAfter →
      acmStackViolations maxDays env [{ id := certId }] =
        if Int.fdiv (notAfter - env.now) msInDay < maxDays then
          ["certificate expires in " ++
            toString (Int.fdiv (notAfter - env.now) msInDay) ++
            " (max allowed " ++ toString maxDays ++ " days)"]
        else []) := by
  constructor
  · intro h
    simp only [acmStackViolations, List.map, List.flatten, List.append_nil]
    rw [acmCertViolations]
    cases hd : env.describeCertificate certId with
    | none => rfl
    | some d =>
      cases hn : d.NotAfter with
      | none => simp [hn]
      | some v =>
        rw [hd] at h
        have h2 : d.NotAfter = none := h
        rw [hn] at h2
        exact Option.noConfusion h2
  · intro notAfter h
    simp only [acmStackViolations, List.map, List.flatten, List.append_nil]
    rw [acmCertViolations]
    cases hd : env.describeCertificate certId with
    | none => rw [hd] at h; exact Option.noConfusion h
    | some d =>
      rw [hd] at h
      cases hn : d.NotAfter with
      | none =>
        have h2 : d.NotAfter = some notAfter := h
        rw [hn] at h2
        exact Option.noConfusion h2
      | some v =>
        have h2 : d.NotAfter = some notAfter := h
        rw [hn] at h2
        injection h2 with h3
        subst h3
        simp [hn]

/-- Witness for C3 amended: no violation under `noExpiryEnv`, and the single
concrete violation message under `expiredCertEnv` (twenty days past expiry,
threshold fourteen). -/
theorem acm_expiry_violation_characterization_witness :
    acmStackViolations 14 noExpiryEnv [{ id := "cert-1" }] = [] ∧
    acmStackViolations 14 expiredCertEnv [{ id := "cert-1" }] =
      ["certificate expires in -20 (max allowed 14 days)"] :=
  ⟨(acm_expiry_violation_characterization noExpiryEnv "cert-1" 14).1 rfl,
    ((acm_expiry_violation_characterization expiredCertEnv "cert-1" 14).2
      0 rfl).trans (by decide)⟩

/-- C5: the typed filter hands the validation body exactly the filtered form
of the resolved resources: that list is a sublist (same relative order) of
the resolved input, its members are exactly the resolved resources accepted
by the type filter, and when nothing matches the body receives `[]`, so a
body that reports nothing on `[]` yields no violation and no error. -/
theorem validateTypedResources_filters_in_order
    (typeFilter : ResolvedResource → Bool)
    (validate : List ResolvedResource → List String)
    (resources : List ResourceArgs) :
    validateTypedResources typeFilter validate resources =
      validate ((resources.map resolveResource).filter typeFilter) ∧
    List.Sublist ((resources.map resolveResource).filter typeFilter)
      (resources.map resolveResource) ∧
    (∀ x, x ∈ (resources.map resolveResource).filter typeFilter ↔
      x ∈ resources.map resolveResource ∧ typeFilter x = true) ∧
    ((∀ r ∈ resources, typeFilter (resolveResource r) = false) →
      validate [] = [] →
      validateTypedResources typeFilter validate resources = []) := by
  refine ⟨rfl, List.filter_sublist _, fun x => List.mem_filter, ?_⟩
  intro hnone hempty
  have hnil : (resources.map resolveResource).filter typeFilter = [] := by
    rw [List.filter_eq_nil_iff]
    intro a ha
    rcases List.mem_map.mp ha with ⟨r, hr, rfl⟩
    simp [hnone r hr]
  rw [validateTypedResources, hnil, hempty]

/-- Witness for C5: a stack holding only a KMS key, filtered with the ACM
certificate type token, yields no violation even under a body that would
report once per received resource. -/
theorem validateTypedResources_filters_in_order_witness :
    validateTypedResources
      (fun x => x.pulumiType == "aws:acm/certificate:Certificate")
      (fun rs => rs.map (fun _ => "violation"))
      [{ type := "aws:kms/key:Key", props := [] }] = [] :=
  (validateTypedResources_filters_in_order _ _ _).2.2.2 (by decide) rfl

/-- C6: an access-key resource whose id is absent or whose status is not
`"Active"` is skipped entirely by the `access-keys-rotated` body: no
`listAccessKeys` call is made for it (empty fetch trace) and no violation is
reported for it, whatever the provider would answer and whatever the key's
true age. -/
theorem accessKey_skip_no_fetch_no_violation (env : AwsEnv) (maxKeyAge : Int)
    (fuel : Nat) (k : AccessKeyResource)
    (h : k.id = none ∨ k.status ≠ some "Active") :
    processAccessKey env maxKeyAge fuel k = ([], some []) := by
  have hs : shouldSkipAccessKey k = true := by
    simp only [shouldSkipAccessKey, Bool.or_eq_true, bne_iff_ne, ne_eq,
      Bool.not_eq_eq_eq_not, Bool.not_true]
    rcases h with h | h
    · left; simp [truthyStr, h]
    · right; exact h
  simp [processAccessKey, hs]

/-- Witness for C6: an inactive key is skipped even against the provider
that would paginate forever. -/
theorem accessKey_skip_no_fetch_no_violation_witness :
    processAccessKey alwaysTruncatedEnv 90 5
      { id := some "AKIAEXAMPLE", user := "alice", status := some "Inactive" } =
      ([], some []) :=
  accessKey_skip_no_fetch_no_violation alwaysTruncatedEnv 90 5 _
    (Or.inr (by decide))

/-- C7: the `mfa-enabled-for-iam-console-access` body reports exactly one
violation — naming the user — when the provider lists zero MFA devices for
that user, and reports none when the provider lists one or more devices. -/
theorem mfa_violation_iff_no_devices (env : AwsEnv)
    (inst : UserLoginProfileResource) :
    ((env.listMFADevices inst.user).length = 0 →
      mfaViolations env inst =
        ["no MFA device enabled for IAM User " ++ squote ++ inst.user ++
          squote]) ∧
    ((env.listMFADevices inst.user).length ≠ 0 →
      mfaViolations env inst = []) := by
  constructor
  · intro h; simp [mfaViolations, h]
  · intro h; simp [mfaViolations, h]

/-- Witness for C7: user alice with zero devices gets the single violation;
with one device she gets none. -/
theorem mfa_violation_iff_no_devices_witness :
    mfaViolations baseEnv { user := "alice" } =
      ["no MFA device enabled for IAM User " ++ squote ++ "alice" ++
        squote] ∧
    mfaViolations oneMfaDeviceEnv { user := "alice" } = [] :=
  ⟨(mfa_violation_iff_no_devices baseEnv { user := "alice" }).1 rfl,
    (mfa_violation_iff_no_devices oneMfaDeviceEnv { user := "alice" }).2
      (by decide)⟩

/-- C8: a fetched access-key metadata item can contribute a violation only if
its `AccessKeyId` equals the in-scope resource id and it carries a
`CreateDate`; an item failing either condition contributes nothing. -/
theorem accessKey_item_correlation (instId : String) (now maxKeyAge : Int)
    (item : AccessKeyMetadata) :
    (keyItemViolations instId now maxKeyAge item ≠ [] →
      item.AccessKeyId = some instId ∧ item.CreateDate.isSome = true) ∧
    (item.AccessKeyId ≠ some instId →
      keyItemViolations instId now maxKeyAge item = []) ∧
    (item.CreateDate = none →
      keyItemViolations instId now maxKeyAge item = []) := by
  obtain ⟨kid, cd⟩ := item
  refine ⟨?_, ?_, ?_⟩
  · intro h
    cases kid with
    | none => cases cd <;> exact absurd rfl h
    | some k =>
      cases cd with
      | none => exact absurd rfl h
      | some c =>
        by_cases hk : k = instId
        · subst hk; exact ⟨rfl, rfl⟩
        · exact absurd (by simp [keyItemViolations, hk]) h
  · intro h
    cases kid with
    | none => cases cd <;> rfl
    | some k =>
      cases cd with
      | none => rfl
      | some c =>
        have hk : ¬(k = instId) := fun he => h (by rw [he])
        simp [keyItemViolations, hk]
  · intro h
    cases kid with
    | none => cases cd <;> rfl
    | some k =>
      cases cd with
      | none => rfl
      | some c => exact Option.noConfusion h

/-- Witness for C8: an item with a different id contributes nothing, and an
item with the right id but no creation date contributes nothing. -/
theorem accessKey_item_correlation_witness :
    keyItemViolations "AKIA1" 0 90
      { AccessKeyId := some "AKIA2", CreateDate := some 0 } = [] ∧
    keyItemViolations "AKIA1" 0 90
      { AccessKeyId := some "AKIA1", CreateDate := none } = [] :=
  ⟨(accessKey_item_correlation "AKIA1" 0 90 _).2.1 (by decide),
    (accessKey_item_correlation "AKIA1" 0 90 _).2.2 rfl⟩

/-- C9: for an in-scope key (matching id, creation date present) the age test
is a strict comparison on floored whole days: a violation is contributed iff
`fdiv (now - createDate) msInDay` strictly exceeds `maxKeyAge`, so a key
whose floored age equals `maxKeyAge` exactly contributes nothing. -/
theorem accessKey_age_strict_floor (instId : String)
    (now createDate maxKeyAge : Int) :
    (keyItemViolations instId now maxKeyAge
        { AccessKeyId := some instId, CreateDate := some createDate } ≠ [] ↔
      Int.fdiv (now - createDate) msInDay > maxKeyAge) ∧
    (Int.fdiv (now - createDate) msInDay = maxKeyAge →
      keyItemViolations instId now maxKeyAge
        { AccessKeyId := some instId, CreateDate := some createDate } = []) := by
  have hbase : keyItemViolations instId now maxKeyAge
      { AccessKeyId := some instId, CreateDate := some createDate } =
      if Int.fdiv (now - createDate) msInDay > maxKeyAge then
        ["access key must be rotated within " ++ toString maxKeyAge ++
          " days (key is " ++
          toString (Int.fdiv (now - createDate) msInDay) ++ " days old)"]
      else [] := by
    simp [keyItemViolations]
  constructor
  · rw [hbase]
    by_cases hgt : Int.fdiv (now - createDate) msInDay > maxKeyAge
    · simp [hgt]
    · simp [hgt]
  · intro he
    rw [hbase, if_neg (by rw [he]; exact lt_irrefl maxKeyAge)]

/-- Witness for C9: a key created exactly ninety days ago, with
`maxKeyAge = 90`, contributes no violation. -/
theorem accessKey_age_strict_floor_witness :
    keyItemViolations "AKIA1" (90 * msInDay) 90
      { AccessKeyId := some "AKIA1", CreateDate := some 0 } = [] :=
  (accessKey_age_strict_floor "AKIA1" (90 * msInDay) 0 90).2 (by decide)

/-- C10: the `cmk-backing-key-rotation-enabled` body reports its violation
exactly when `enableKeyRotation` is not literally `true` — in particular an
absent field is treated the same as `false` — and reports nothing exactly
when the field is `true`. -/
theorem cmk_violation_iff_not_enabled (k : KmsKeyResource) :
    (cmkKeyViolations k ≠ [] ↔ k.enableKeyRotation ≠ some true) ∧
    (k.enableKeyRotation = none →
      cmkKeyViolations k =
        ["CMK does not have the key rotation setting enabled"]) ∧
    (k.enableKeyRotation = some true → cmkKeyViolations k = []) := by
  obtain ⟨e⟩ := k
  refine ⟨?_, ?_, ?_⟩
  · cases e with
    | none => simp [cmkKeyViolations, truthyBool]
    | some b => cases b <;> simp [cmkKeyViolations, truthyBool]
  · intro h; subst h; rfl
  · intro h; subst h; rfl

/-- Witness for C10: a key with the field absent gets the violation, a key
with rotation enabled gets none. -/
theorem cmk_violation_iff_not_enabled_witness :
    cmkKeyViolations { enableKeyRotation := none } =
      ["CMK does not have the key rotation setting enabled"] ∧
    cmkKeyViolations { enableKeyRotation := some true } = [] :=
  ⟨(cmk_violation_iff_not_enabled { enableKeyRotation := none }).2.1 rfl,
    (cmk_violation_iff_not_enabled { enableKeyRotation := some true }).2.2
      rfl⟩
